import Mathlib

/-!
# Verification of the `Entity` derivation compiler of `money-rs`

Shallow embedding of `src/inner_macros/src/lib.rs`: the `Entity` derive
macro that, from one annotated struct, generates five DTO shapes
(`New<Name>`, `Create<Name>Request`, `Update<Name>`, `Update<Name>Request`,
`<Name>Response`).

Modelling decisions:
* A `syn::Type` is abstracted to `Ty`: a path type with its segment list
  and at most one generic argument (the macro only ever inspects the head
  segment, and only ever builds `Option<T>`, `String` and `Option<String>`,
  all of arity ≤ 1), plus an opaque non-path case for every other `syn`
  type variant (references, tuples, ...), on which `is_option_type` is
  `false` exactly as in the source.
* The token stream input is abstracted to its parsed content: an entity
  name, the first `#[diesel(table_name = ...)]` value when present, and
  the ordered field list, each field carrying its optional identifier
  (`none` models a tuple-style unnamed field), its type, and the ordered
  list of meta tokens appearing inside its `#[entity(...)]` attributes.
* `proc_macro2::Ident::new` panics on a string that is not a valid Rust
  identifier.  All inputs reaching it are valid identifiers or the result
  of stripping `_id` from one, so the only reachable panic is the empty
  string; `identNew` models exactly that.  A panic is a third outcome of
  the macro, distinct from a returned `Diagnostic`.
* The unknown-token arm builds a `syn::Error` at `attr.span()`, but line
  222 converts it with `Diagnostic::new(Level::Error, e.to_string())`,
  which keeps only the message and drops the span.  The message names the
  offending token alone, never the field, so `Diag.unknownFlag` carries
  just the token.
-/

namespace MoneyRs

/-- Abstraction of `syn::Type`: a path with segments and ≤ 1 generic
argument, or an opaque non-path type. -/
inductive Ty where
  | path0 (segments : List String) : Ty
  | path1 (segments : List String) (arg : Ty) : Ty
  | nonPath (tag : Nat) : Ty
deriving DecidableEq, Repr

/-- `is_option_type` from the source: a type is an `Option` iff it is a
path type whose first segment is the identifier `Option`. -/
def is_option_type : Ty → Bool
  | .path0 segs => match segs.head? with
    | some s => s == "Option"
    | none => false
  | .path1 segs _ => match segs.head? with
    | some s => s == "Option"
    | none => false
  | .nonPath _ => false

/-- `make_option` from the source: wrap in `Option<·>` unless the type is
already an `Option`. -/
def make_option (ty : Ty) : Ty :=
  if is_option_type ty then ty else .path1 ["Option"] ty

/-- The `String` type produced by `parse_quote! { String }`. -/
def tyString : Ty := .path0 ["String"]

/-- The `Option<String>` type produced by `parse_quote! { Option<String> }`. -/
def tyOptionString : Ty := .path1 ["Option"] tyString

/-- One field of the input struct: its identifier (`none` for a
tuple-style field), declared type, and the meta tokens of its
`#[entity(...)]` attributes in source order. -/
structure FieldInput where
  ident : Option String
  ty : Ty
  tokens : List String
deriving DecidableEq, Repr

/-- The parsed input to the macro: struct name, the first
`#[diesel(table_name = ...)]` value when present, ordered fields. -/
structure EntityInput where
  name : String
  table_name : Option String
  fields : List FieldInput
deriving DecidableEq, Repr

/-- The mutable per-field booleans of the source, with their initial
values from lines 178–184. -/
structure FlagState where
  push_to_new : Bool := true
  option_in_new : Bool := false
  push_to_create_request : Bool := true
  push_to_update : Bool := true
  push_to_update_request : Bool := true
  push_to_response : Bool := true
  representable_as_name : Bool := false
deriving DecidableEq, Repr

deriving instance DecidableEq for Except

/-- The effect of one `#[entity(...)]` meta token on the flag state;
`none` is the `other =>` arm returning a `syn::Error` for an unknown
token. -/
def applyToken (st : FlagState) (tok : String) : Option FlagState :=
  if tok = "NotUpdatable" then
    some { st with push_to_update := false, push_to_update_request := false }
  else if tok = "NotViewable" then
    some { st with push_to_response := false }
  else if tok = "HasDefault" then
    some { st with option_in_new := true }
  else if tok = "NotSettable" then
    some { st with push_to_create_request := false, push_to_update := false,
                   push_to_update_request := false }
  else if tok = "Id" then
    some { st with push_to_new := false }
  else if tok = "RepresentableAsString" then
    some { st with representable_as_name := true }
  else
    none

/-- The attribute loop of lines 186–225: fold the tokens over the flag
state, stopping at the first unknown token (`.error tok`). -/
def parseFlags : FlagState → List String → Except String FlagState
  | st, [] => .ok st
  | st, t :: ts =>
    match applyToken st t with
    | some st' => parseFlags st' ts
    | none => .error t

/-- Rust `str::strip_suffix`: `some` of the prefix when the suffix is
present, `none` otherwise. -/
def strip_suffix (s suffix : String) : Option String :=
  if suffix.data.isSuffixOf s.data then
    some (String.mk (s.data.take (s.data.length - suffix.data.length)))
  else
    none

/-- `proc_macro2::Ident::new`, which panics on an invalid identifier.
Every string reaching it in the macro is a valid identifier with a
possibly stripped `_id` suffix, so the one reachable invalid case is the
empty string: `none` models that panic. -/
def identNew (s : String) : Option String :=
  if s = "" then none else some s

/-- Lines 230–239: the visible field name. With `RepresentableAsString`
set, a trailing `_id` is stripped and the result goes through
`Ident::new`; otherwise the identifier is used unchanged. -/
def code_visible_name (ident : String) (representable_as_name : Bool) :
    Option String :=
  if representable_as_name then
    let name_id := ident
    let name :=
      match strip_suffix name_id "_id" with
      | some n => n
      | none => name_id
    identNew name
  else
    some ident

/-- Lines 241–249: the visible field type. With `RepresentableAsString`
set, `Option<String>` for an already-optional declared type and `String`
otherwise; else the declared type unchanged. -/
def code_visible_type (field_type : Ty) (representable_as_name : Bool) : Ty :=
  if representable_as_name then
    if is_option_type field_type then tyOptionString else tyString
  else
    field_type

/-- What one field contributes to each of the five generated structs
(`none` when the field is excluded from that struct), and to the unused
`entity_fields` accumulator. -/
structure FieldOut where
  entity : String × Ty
  new? : Option (String × Ty)
  create_request? : Option (String × Ty)
  update? : Option (String × Ty)
  update_request? : Option (String × Ty)
  response? : Option (String × Ty)
deriving DecidableEq, Repr

/-- Outcome of processing one field: its contributions, a returned
diagnostic, or a panic. -/
inductive FieldResult where
  | ok (o : FieldOut) : FieldResult
  | unknownFlag (token : String) : FieldResult
  | nonNamedField : FieldResult
  | panics : FieldResult
deriving DecidableEq, Repr

/-- The body of the field loop, lines 176–292, in source order: the
unnamed-field check, the attribute fold, the visible name (which can
panic), the visible type, the response push (before `option_in_new`
wrapping), the create-side wrapping, and the five pushes. -/
def processField (f : FieldInput) : FieldResult :=
  match f.ident with
  | none => .nonNamedField
  | some ident =>
    match parseFlags {} f.tokens with
    | .error tok => .unknownFlag tok
    | .ok st =>
      let field_type := f.ty
      let field_type_opt := make_option field_type
      match code_visible_name ident st.representable_as_name with
      | none => .panics
      | some name_ident =>
        let name_type := code_visible_type field_type st.representable_as_name
        let response? :=
          if st.push_to_response then some (name_ident, name_type) else none
        let name_type :=
          if st.option_in_new then make_option name_type else name_type
        let new_type := if st.option_in_new then field_type_opt else field_type
        let name_type_opt := make_option name_type
        .ok {
          entity := (ident, field_type)
          new? := if st.push_to_new then some (ident, new_type) else none
          create_request? :=
            if st.push_to_create_request then some (name_ident, name_type)
            else none
          update? :=
            if st.push_to_update then some (ident, field_type_opt) else none
          update_request? :=
            if st.push_to_update_request then some (name_ident, name_type_opt)
            else none
          response? := response?
        }

/-- Outcome of the whole field loop. -/
inductive CollectResult where
  | ok (outs : List FieldOut) : CollectResult
  | unknownFlag (token : String) : CollectResult
  | nonNamedField : CollectResult
  | panics : CollectResult
deriving DecidableEq, Repr

/-- The field loop: fields are processed in declaration order and the
first diagnostic or panic aborts the whole derivation. -/
def collectFields : List FieldInput → CollectResult
  | [] => .ok []
  | f :: fs =>
    match processField f with
    | .ok o =>
      match collectFields fs with
      | .ok os => .ok (o :: os)
      | .unknownFlag t => .unknownFlag t
      | .nonNamedField => .nonNamedField
      | .panics => .panics
    | .unknownFlag t => .unknownFlag t
    | .nonNamedField => .nonNamedField
    | .panics => .panics

/-- The diagnostics the macro can return.  The unknown-flag diagnostic
carries only the offending token: line 222 rebuilds the `syn::Error` as
`Diagnostic::new(Level::Error, e.to_string())`, so its message names the
token and the attribute span is dropped — nothing identifies the field. -/
inductive Diag where
  | noTableName : Diag
  | unknownFlag (token : String) : Diag
  | nonNamedField : Diag
deriving DecidableEq, Repr

/-- One emitted shape: its generated name and ordered field list. -/
structure Shape where
  name : String
  fields : List (String × Ty)
deriving DecidableEq, Repr

/-- The five generated structs; the two persistence-facing ones carry the
`table_name`. -/
structure Shapes where
  table_name : String
  new : Shape
  create_request : Shape
  update : Shape
  update_request : Shape
  response : Shape
deriving DecidableEq, Repr

/-- Outcome of the macro: the five shapes, a diagnostic, or a panic. -/
inductive MacroResult where
  | ok (s : Shapes) : MacroResult
  | err (d : Diag) : MacroResult
  | panics : MacroResult
deriving DecidableEq, Repr

/-- `entity_macro_internal` (lines 115–328): check the table name, run
the field loop, and assemble the five structs from the accumulated field
lists; any diagnostic or panic yields no shapes at all. -/
def entity_macro_internal (e : EntityInput) : MacroResult :=
  match e.table_name with
  | none => .err .noTableName
  | some table =>
    match collectFields e.fields with
    | .unknownFlag t => .err (.unknownFlag t)
    | .nonNamedField => .err .nonNamedField
    | .panics => .panics
    | .ok outs =>
      .ok {
        table_name := table
        new := { name := "New" ++ e.name
                 fields := outs.filterMap (·.new?) }
        create_request := { name := "Create" ++ e.name ++ "Request"
                            fields := outs.filterMap (·.create_request?) }
        update := { name := "Update" ++ e.name
                    fields := outs.filterMap (·.update?) }
        update_request := { name := "Update" ++ e.name ++ "Request"
                            fields := outs.filterMap (·.update_request?) }
        response := { name := e.name ++ "Response"
                      fields := outs.filterMap (·.response?) }
      }

/-! ## Specification-side definitions

The decision table of spec §4.2 and the transformer of §4.3, written from
the spec's words as functions of a field's flag set (membership in the
token list), to be compared with the imperative computation above. -/

/-- The six recognized flag tokens. -/
def recognizedFlags : List String :=
  ["NotUpdatable", "NotViewable", "HasDefault", "NotSettable", "Id",
   "RepresentableAsString"]

/-- A field carries a flag iff the token occurs in its token list. -/
def hasFlag (f : FieldInput) (t : String) : Bool :=
  f.tokens.contains t

/-- The field's declared name (`""` only for an unnamed field, which the
macro rejects before using it). -/
def field_ident (f : FieldInput) : String :=
  f.ident.getD ""

/-- Spec §4.2 decision table: inclusion in the persistence-create shape
defaults to true, turned off only by `Id`. -/
def include_in_create (f : FieldInput) : Bool :=
  !hasFlag f "Id"

/-- Spec §4.2 decision table: inclusion in the create-request shape
defaults to true, turned off only by `NotSettable`. -/
def include_in_create_request (f : FieldInput) : Bool :=
  !hasFlag f "NotSettable"

/-- Spec §4.2 decision table: inclusion in the persistence-update shape
defaults to true, turned off by `NotUpdatable` or `NotSettable`. -/
def include_in_update (f : FieldInput) : Bool :=
  !(hasFlag f "NotUpdatable" || hasFlag f "NotSettable")

/-- Spec §4.2 decision table: inclusion in the update-request shape
defaults to true, turned off by `NotUpdatable` or `NotSettable`. -/
def include_in_update_request (f : FieldInput) : Bool :=
  !(hasFlag f "NotUpdatable" || hasFlag f "NotSettable")

/-- Spec §4.2 decision table: inclusion in the response shape defaults to
true, turned off only by `NotViewable`. -/
def include_in_response (f : FieldInput) : Bool :=
  !hasFlag f "NotViewable"

/-- Spec §4.2 decision table: wrap-optional-on-create defaults to false,
turned on only by `HasDefault`. -/
def wrap_optional_on_create (f : FieldInput) : Bool :=
  hasFlag f "HasDefault"

/-- Spec §4.3(a): the externally visible field name — `_id` suffix
stripped when `RepresentableAsString` is set, the declared name
otherwise. -/
def visible_name (f : FieldInput) : String :=
  if hasFlag f "RepresentableAsString" then
    match strip_suffix (field_ident f) "_id" with
    | some n => n
    | none => field_ident f
  else
    field_ident f

/-- Spec §4.3(a): the externally visible field type — `String` or
`Option<String>` when `RepresentableAsString` is set, the declared type
otherwise. -/
def visible_type (f : FieldInput) : Ty :=
  code_visible_type f.ty (hasFlag f "RepresentableAsString")

/-- Spec §4.3(b) create-side wrapping of the visible type, applied when
`wrap_optional_on_create` holds. -/
def create_wrapped_visible_type (f : FieldInput) : Ty :=
  if wrap_optional_on_create f then make_option (visible_type f)
  else visible_type f

/-- Spec §4.3(b) create-side wrapping of the declared type, used by the
persistence-create shape. -/
def new_type (f : FieldInput) : Ty :=
  if wrap_optional_on_create f then make_option f.ty else f.ty

/-- A field's entry in the persistence-create shape: declared name,
create-side wrapped declared type. -/
def newEntry? (f : FieldInput) : Option (String × Ty) :=
  if include_in_create f then some (field_ident f, new_type f) else none

/-- A field's entry in the create-request shape: visible name,
create-side wrapped visible type. -/
def createRequestEntry? (f : FieldInput) : Option (String × Ty) :=
  if include_in_create_request f then
    some (visible_name f, create_wrapped_visible_type f)
  else none

/-- A field's entry in the persistence-update shape: declared name,
unconditionally optional-wrapped declared type. -/
def updateEntry? (f : FieldInput) : Option (String × Ty) :=
  if include_in_update f then some (field_ident f, make_option f.ty) else none

/-- A field's entry in the update-request shape: visible name,
unconditionally optional-wrapped create-side-wrapped visible type. -/
def updateRequestEntry? (f : FieldInput) : Option (String × Ty) :=
  if include_in_update_request f then
    some (visible_name f, make_option (create_wrapped_visible_type f))
  else none

/-- A field's entry in the response shape: visible name and visible type,
taken before any create-side wrapping. -/
def responseEntry? (f : FieldInput) : Option (String × Ty) :=
  if include_in_response f then some (visible_name f, visible_type f)
  else none

/-- The spec-side description of everything one field contributes. -/
def specFieldOut (f : FieldInput) : FieldOut :=
  { entity := (field_ident f, f.ty)
    new? := newEntry? f
    create_request? := createRequestEntry? f
    update? := updateEntry? f
    update_request? := updateRequestEntry? f
    response? := responseEntry? f }

/-- A field the macro processes without diagnostic or panic: it is named,
all its tokens are recognized, and name stripping does not produce an
empty identifier. -/
def fieldOk (f : FieldInput) : Prop :=
  f.ident ≠ none ∧ (∀ t ∈ f.tokens, t ∈ recognizedFlags) ∧
    (hasFlag f "RepresentableAsString" = true → visible_name f ≠ "")

/-- Placeholder entry used to express a shape as a `map` over a sublist of
the declared fields. -/
def dummyEntry : String × Ty :=
  ("", .nonPath 0)

/-! ## Concrete inputs used in witnesses and counterexamples -/

/-- The `int` type of the spec's end-to-end example. -/
def tyInt : Ty := .path0 ["int"]

/-- The `string` type of the spec's end-to-end example. -/
def tyStr : Ty := .path0 ["string"]

/-- The spec's end-to-end example entity `Widget`. -/
def widgetEntity : EntityInput :=
  { name := "Widget"
    table_name := some "widgets"
    fields :=
      [{ ident := some "id", ty := tyInt,
         tokens := ["NotUpdatable", "NotViewable", "NotSettable", "Id"] },
       { ident := some "label", ty := tyStr, tokens := [] },
       { ident := some "count", ty := tyInt, tokens := ["HasDefault"] }] }

/-- The five shapes the macro produces for `widgetEntity`. -/
def widgetShapes : Shapes :=
  { table_name := "widgets"
    new := { name := "NewWidget"
             fields := [("label", tyStr), ("count", .path1 ["Option"] tyInt)] }
    create_request :=
      { name := "CreateWidgetRequest"
        fields := [("label", tyStr), ("count", .path1 ["Option"] tyInt)] }
    update :=
      { name := "UpdateWidget"
        fields := [("label", .path1 ["Option"] tyStr),
                   ("count", .path1 ["Option"] tyInt)] }
    update_request :=
      { name := "UpdateWidgetRequest"
        fields := [("label", .path1 ["Option"] tyStr),
                   ("count", .path1 ["Option"] tyInt)] }
    response := { name := "WidgetResponse"
                  fields := [("label", tyStr), ("count", tyInt)] } }

/-- An entity with a single field carrying the unrecognized token
`Bogus`. -/
def bogusEntity : EntityInput :=
  { name := "Gadget"
    table_name := some "gadgets"
    fields := [{ ident := some "x", ty := tyInt, tokens := ["Bogus"] }] }

/-- The same entity as `bogusEntity` except that the offending field is
named `y` instead of `x`. -/
def bogusEntityY : EntityInput :=
  { name := "Gadget"
    table_name := some "gadgets"
    fields := [{ ident := some "y", ty := tyInt, tokens := ["Bogus"] }] }

/-- An entity with a single field flagged `HasDefault` alone. -/
def hasDefaultEntity : EntityInput :=
  { name := "Counter"
    table_name := some "counters"
    fields := [{ ident := some "count", ty := tyInt,
                 tokens := ["HasDefault"] }] }


lemma is_option_type_make_option (t : Ty) : is_option_type (make_option t) = true := by
  by_cases h : is_option_type t = true
  · simp [make_option, h]
  · simp only [Bool.not_eq_true] at h
    rw [make_option, if_neg (by simp [h])]
    simp [is_option_type]

lemma applyToken_eq_none_iff (st : FlagState) (t : String) :
    applyToken st t = none ↔ t ∉ recognizedFlags := by
  unfold applyToken recognizedFlags
  split_ifs with h1 h2 h3 h4 h5 h6 <;> simp_all

lemma parseFlags_eq_of_recognized (toks : List String) :
    ∀ st : FlagState, (∀ t ∈ toks, t ∈ recognizedFlags) →
    parseFlags st toks = .ok
      { push_to_new := st.push_to_new && !toks.contains "Id"
        option_in_new := st.option_in_new || toks.contains "HasDefault"
        push_to_create_request := st.push_to_create_request && !toks.contains "NotSettable"
        push_to_update := st.push_to_update && !(toks.contains "NotUpdatable" || toks.contains "NotSettable")
        push_to_update_request := st.push_to_update_request && !(toks.contains "NotUpdatable" || toks.contains "NotSettable")
        push_to_response := st.push_to_response && !toks.contains "NotViewable"
        representable_as_name := st.representable_as_name || toks.contains "RepresentableAsString" } := by
  induction toks with
  | nil => intro st h; simp [parseFlags]
  | cons t ts ih =>
    intro st h
    have ht : t ∈ recognizedFlags := h t (List.mem_cons_self t ts)
    have hts : ∀ u ∈ ts, u ∈ recognizedFlags := fun u hu => h u (List.mem_cons_of_mem t hu)
    unfold recognizedFlags at ht
    simp only [List.mem_cons, List.mem_singleton, List.not_mem_nil, or_false] at ht
    rcases ht with rfl | rfl | rfl | rfl | rfl | rfl <;>
      simp [parseFlags, applyToken, ih _ hts, List.contains_cons]

lemma parseFlags_error_mem (toks : List String) :
    ∀ (st : FlagState) (t : String), parseFlags st toks = .error t →
      t ∈ toks ∧ t ∉ recognizedFlags := by
  induction toks with
  | nil => intro st t h; simp [parseFlags] at h
  | cons u ts ih =>
    intro st t h
    unfold parseFlags at h
    cases hu : applyToken st u with
    | some st2 =>
      rw [hu] at h
      obtain ⟨h1, h2⟩ := ih st2 t h
      exact ⟨List.mem_cons_of_mem u h1, h2⟩
    | none =>
      rw [hu] at h
      obtain rfl : u = t := by simpa using h
      exact ⟨List.mem_cons_self u ts, (applyToken_eq_none_iff st u).mp hu⟩

lemma parseFlags_error_of_bad (toks : List String) :
    ∀ st : FlagState, (∃ t ∈ toks, t ∉ recognizedFlags) →
      ∃ t, parseFlags st toks = .error t := by
  induction toks with
  | nil => intro st h; simp at h
  | cons u ts ih =>
    intro st h
    cases hu : applyToken st u with
    | some st2 =>
      have hurec : u ∈ recognizedFlags := by
        by_contra hc
        rw [(applyToken_eq_none_iff st u).mpr hc] at hu
        exact Option.noConfusion hu
      obtain ⟨t, ht, htbad⟩ := h
      rcases List.mem_cons.mp ht with rfl | hts
      · exact absurd hurec htbad
      · obtain ⟨t2, ht2⟩ := ih st2 ⟨t, hts, htbad⟩
        exact ⟨t2, by simp [parseFlags, hu, ht2]⟩
    | none =>
      exact ⟨u, by simp [parseFlags, hu]⟩

lemma parseFlags_ok_recognized (toks : List String) :
    ∀ (st st2 : FlagState), parseFlags st toks = .ok st2 →
      ∀ t ∈ toks, t ∈ recognizedFlags := by
  induction toks with
  | nil => intro st st2 _ t ht; simp at ht
  | cons u ts ih =>
    intro st st2 h t ht
    unfold parseFlags at h
    cases hu : applyToken st u with
    | some st3 =>
      rw [hu] at h
      rcases List.mem_cons.mp ht with rfl | hts
      · by_contra hc
        rw [(applyToken_eq_none_iff st t).mpr hc] at hu
        exact Option.noConfusion hu
      · exact ih st3 st2 h t hts
    | none => rw [hu] at h; exact Except.noConfusion h

lemma code_visible_name_eq (f : FieldInput) (n : String) (hn : f.ident = some n)
    (hsafe : hasFlag f "RepresentableAsString" = true → visible_name f ≠ "") :
    code_visible_name n (hasFlag f "RepresentableAsString") =
      some (visible_name f) := by
  have hfi : field_ident f = n := by simp [field_ident, hn]
  by_cases hras : hasFlag f "RepresentableAsString" = true
  · have hvn := hsafe hras
    unfold visible_name at hvn ⊢
    rw [hras, if_pos rfl] at hvn ⊢
    rw [hfi] at hvn ⊢
    unfold code_visible_name identNew
    rw [if_pos rfl, if_neg hvn]
  · simp only [Bool.not_eq_true] at hras
    rw [hras]
    simp [code_visible_name, visible_name, hras, hfi]

lemma processField_eq_ok (f : FieldInput) (n : String) (hn : f.ident = some n)
    (hrec : ∀ t ∈ f.tokens, t ∈ recognizedFlags)
    (hsafe : hasFlag f "RepresentableAsString" = true → visible_name f ≠ "") :
    processField f = .ok (specFieldOut f) := by
  have hcvn := code_visible_name_eq f n hn hsafe
  simp only [hasFlag] at hcvn
  unfold processField
  rw [hn, parseFlags_eq_of_recognized f.tokens {} hrec]
  simp only [Bool.true_and, Bool.false_or]
  rw [hcvn]
  simp only [specFieldOut, newEntry?, createRequestEntry?, updateEntry?,
    updateRequestEntry?, responseEntry?, include_in_create,
    include_in_create_request, include_in_update, include_in_update_request,
    include_in_response, wrap_optional_on_create, new_type,
    create_wrapped_visible_type, visible_type, hasFlag, field_ident, hn,
    Option.getD_some, Bool.true_and, Bool.false_or]

lemma processField_ok_conditions (f : FieldInput) (o : FieldOut)
    (h : processField f = .ok o) :
    ∃ n, f.ident = some n ∧ (∀ t ∈ f.tokens, t ∈ recognizedFlags) ∧
      (hasFlag f "RepresentableAsString" = true → visible_name f ≠ "") := by
  cases hn : f.ident with
  | none =>
    simp only [processField, hn] at h
    exact FieldResult.noConfusion h
  | some n =>
    cases hp : parseFlags {} f.tokens with
    | error t =>
      simp only [processField, hn, hp] at h
      exact FieldResult.noConfusion h
    | ok st =>
      have hrec : ∀ t ∈ f.tokens, t ∈ recognizedFlags :=
        parseFlags_ok_recognized f.tokens {} st hp
      refine ⟨n, rfl, hrec, ?_⟩
      intro hras
      have hst : st.representable_as_name = true := by
        rw [parseFlags_eq_of_recognized f.tokens {} hrec] at hp
        have h2 := Except.ok.inj hp
        rw [← h2]
        simpa [hasFlag] using hras
      cases hcv : code_visible_name n st.representable_as_name with
      | none =>
        simp only [processField, hn, hp, hcv] at h
        exact FieldResult.noConfusion h
      | some nm =>
        rw [hst] at hcv
        have hfi : field_ident f = n := by simp [field_ident, hn]
        unfold visible_name
        rw [hras, if_pos rfl, hfi]
        simp only [code_visible_name, identNew, if_pos rfl] at hcv
        intro hemp
        rw [if_pos hemp] at hcv
        exact Option.noConfusion hcv

lemma processField_ok_spec (f : FieldInput) (o : FieldOut)
    (h : processField f = .ok o) : o = specFieldOut f := by
  obtain ⟨n, hn, hrec, hsafe⟩ := processField_ok_conditions f o h
  rw [processField_eq_ok f n hn hrec hsafe] at h
  exact (FieldResult.ok.inj h).symm

lemma collectFields_ok_outs (fs : List FieldInput) :
    ∀ outs, collectFields fs = .ok outs → outs = fs.map specFieldOut := by
  induction fs with
  | nil =>
    intro outs h
    simp only [collectFields] at h
    simp [← CollectResult.ok.inj h]
  | cons f fs ih =>
    intro outs h
    unfold collectFields at h
    cases hf : processField f with
    | ok o =>
      rw [hf] at h
      cases hr : collectFields fs with
      | ok os =>
        rw [hr] at h
        rw [← CollectResult.ok.inj h, List.map_cons, ← ih os hr,
          processField_ok_spec f o hf]
      | unknownFlag a => rw [hr] at h; exact CollectResult.noConfusion h
      | nonNamedField => rw [hr] at h; exact CollectResult.noConfusion h
      | panics => rw [hr] at h; exact CollectResult.noConfusion h
    | unknownFlag a => rw [hf] at h; exact CollectResult.noConfusion h
    | nonNamedField => rw [hf] at h; exact CollectResult.noConfusion h
    | panics => rw [hf] at h; exact CollectResult.noConfusion h

lemma collectFields_eq_ok (fs : List FieldInput)
    (h : ∀ f ∈ fs, fieldOk f) :
    collectFields fs = .ok (fs.map specFieldOut) := by
  induction fs with
  | nil => rfl
  | cons f fs ih =>
    obtain ⟨hn, hrec, hsafe⟩ := h f (List.mem_cons_self f fs)
    cases hn2 : f.ident with
    | none => exact absurd hn2 hn
    | some n =>
      unfold collectFields
      rw [processField_eq_ok f n hn2 hrec hsafe,
        ih (fun g hg => h g (List.mem_cons_of_mem f hg))]
      rfl

lemma filterMap_map_spec (g : FieldOut → Option (String × Ty))
    (g2 : FieldInput → Option (String × Ty))
    (hg : ∀ f, g (specFieldOut f) = g2 f) :
    ∀ l : List FieldInput, (l.map specFieldOut).filterMap g = l.filterMap g2 := by
  intro l
  induction l with
  | nil => rfl
  | cons a l ih =>
    rw [List.map_cons, List.filterMap_cons, List.filterMap_cons, hg, ih]

lemma entity_ok_shapes (e : EntityInput) (s : Shapes)
    (h : entity_macro_internal e = .ok s) :
    s.new.fields = e.fields.filterMap newEntry? ∧
    s.create_request.fields = e.fields.filterMap createRequestEntry? ∧
    s.update.fields = e.fields.filterMap updateEntry? ∧
    s.update_request.fields = e.fields.filterMap updateRequestEntry? ∧
    s.response.fields = e.fields.filterMap responseEntry? := by
  unfold entity_macro_internal at h
  cases ht : e.table_name with
  | none => rw [ht] at h; exact MacroResult.noConfusion h
  | some tn =>
    rw [ht] at h
    cases hc : collectFields e.fields with
    | ok outs =>
      rw [hc] at h
      rw [← MacroResult.ok.inj h, collectFields_ok_outs e.fields outs hc]
      exact ⟨filterMap_map_spec _ newEntry? (fun f => rfl) e.fields,
        filterMap_map_spec _ createRequestEntry? (fun f => rfl) e.fields,
        filterMap_map_spec _ updateEntry? (fun f => rfl) e.fields,
        filterMap_map_spec _ updateRequestEntry? (fun f => rfl) e.fields,
        filterMap_map_spec _ responseEntry? (fun f => rfl) e.fields⟩
    | unknownFlag a => rw [hc] at h; exact MacroResult.noConfusion h
    | nonNamedField => rw [hc] at h; exact MacroResult.noConfusion h
    | panics => rw [hc] at h; exact MacroResult.noConfusion h

lemma strip_suffix_append (x : String) : strip_suffix (x ++ "_id") "_id" = some x := by
  unfold strip_suffix
  rw [String.data_append]
  rw [if_pos (by rw [List.isSuffixOf_iff_suffix]; exact List.suffix_append x.data "_id".data)]
  have hl : (x.data ++ "_id".data).length - "_id".data.length = x.data.length := by
    simp
  rw [hl, List.take_left]

lemma strip_suffix_not_suffix (s : String)
    (h : "_id".data.isSuffixOf s.data = false) : strip_suffix s "_id" = none := by
  unfold strip_suffix
  rw [if_neg (by simp [h])]

lemma filterMap_eq_sublist_map {α : Type} (g : α → Option (String × Ty))
    (l : List α) :
    ∃ l2, List.Sublist l2 l ∧
      l.filterMap g = l2.map (fun a => (g a).getD dummyEntry) := by
  refine ⟨l.filter (fun a => (g a).isSome), List.filter_sublist l, ?_⟩
  induction l with
  | nil => rfl
  | cons a l ih =>
    rw [List.filterMap_cons, List.filter_cons]
    cases hg : g a with
    | none => simpa [hg] using ih
    | some b => simp [hg, ih]

lemma collectFields_bad (fs : List FieldInput) :
    (∀ f ∈ fs, f.ident ≠ none) →
    (∀ f ∈ fs, hasFlag f "RepresentableAsString" = true → visible_name f ≠ "") →
    (∃ f ∈ fs, ∃ t ∈ f.tokens, t ∉ recognizedFlags) →
    ∃ f ∈ fs, ∃ t ∈ f.tokens, t ∉ recognizedFlags ∧
      collectFields fs = .unknownFlag t := by
  induction fs with
  | nil => intro _ _ hbad; simp at hbad
  | cons f fs ih =>
    intro hnamed hsafe hbad
    by_cases hfr : ∀ t ∈ f.tokens, t ∈ recognizedFlags
    · obtain ⟨n, hn⟩ : ∃ n, f.ident = some n := by
        cases hi : f.ident with
        | none => exact absurd hi (hnamed f (List.mem_cons_self f fs))
        | some n => exact ⟨n, rfl⟩
      have hpf := processField_eq_ok f n hn hfr (hsafe f (List.mem_cons_self f fs))
      have hbad2 : ∃ g ∈ fs, ∃ t ∈ g.tokens, t ∉ recognizedFlags := by
        obtain ⟨g, hg, t, ht, hbt⟩ := hbad
        rcases List.mem_cons.mp hg with rfl | hgs
        · exact absurd (hfr t ht) hbt
        · exact ⟨g, hgs, t, ht, hbt⟩
      obtain ⟨g, hg, t, ht, hbt, hcf⟩ :=
        ih (fun a ha => hnamed a (List.mem_cons_of_mem f ha))
          (fun a ha => hsafe a (List.mem_cons_of_mem f ha)) hbad2
      refine ⟨g, List.mem_cons_of_mem f hg, t, ht, hbt, ?_⟩
      unfold collectFields
      rw [hpf, hcf]
    · have hex : ∃ t ∈ f.tokens, t ∉ recognizedFlags := by
        push_neg at hfr
        exact hfr
      obtain ⟨t0, ht0⟩ := parseFlags_error_of_bad f.tokens {} hex
      obtain ⟨htmem, htbad⟩ := parseFlags_error_mem f.tokens {} t0 ht0
      obtain ⟨n, hn⟩ : ∃ n, f.ident = some n := by
        cases hi : f.ident with
        | none => exact absurd hi (hnamed f (List.mem_cons_self f fs))
        | some n => exact ⟨n, rfl⟩
      refine ⟨f, List.mem_cons_self f fs, t0, htmem, htbad, ?_⟩
      have hpf : processField f = .unknownFlag t0 := by
        simp only [processField, hn, ht0]
      unfold collectFields
      rw [hpf]

/-! ## Claims -/

/-- Claim C1: for every field, the five shape-inclusion decisions and the
create-optionality decision are a pure function of the field's flag set,
equal to the spec's decision table (new off by `Id`, create-request off by
`NotSettable`, both update shapes off by `NotUpdatable` or `NotSettable`,
response off by `NotViewable`, wrap-optional-on-create on by
`HasDefault`); in particular a field flagged `Id` and `NotSettable` and
not `NotViewable` is pushed only to the response shape. -/
theorem claim1_decision_table (toks : List String)
    (h : ∀ t ∈ toks, t ∈ recognizedFlags) :
    parseFlags {} toks = .ok
      { push_to_new := !toks.contains "Id"
        option_in_new := toks.contains "HasDefault"
        push_to_create_request := !toks.contains "NotSettable"
        push_to_update :=
          !(toks.contains "NotUpdatable" || toks.contains "NotSettable")
        push_to_update_request :=
          !(toks.contains "NotUpdatable" || toks.contains "NotSettable")
        push_to_response := !toks.contains "NotViewable"
        representable_as_name := toks.contains "RepresentableAsString" } ∧
    (toks.contains "Id" = true → toks.contains "NotSettable" = true →
      toks.contains "NotViewable" = false →
      parseFlags {} toks = .ok
        { push_to_new := false
          option_in_new := toks.contains "HasDefault"
          push_to_create_request := false
          push_to_update := false
          push_to_update_request := false
          push_to_response := true
          representable_as_name := toks.contains "RepresentableAsString" }) := by
  have h1 := parseFlags_eq_of_recognized toks {} h
  constructor
  · simpa using h1
  · intro hid hns hnv
    rw [h1]
    simp only [hid, hns, hnv, Bool.true_and, Bool.false_or, Bool.or_true,
      Bool.not_true, Bool.not_false]

/-- Witness for C1 at the flag set of a server-generated identifier. -/
theorem claim1_witness :
    parseFlags {} ["Id", "NotSettable"] = .ok
      { push_to_new := false, option_in_new := false,
        push_to_create_request := false, push_to_update := false,
        push_to_update_request := false, push_to_response := true,
        representable_as_name := false } := by
  rw [(claim1_decision_table ["Id", "NotSettable"] (by decide)).1]
  decide

/-- Claim C2: the spec's end-to-end `Widget` example produces exactly the
five listed shapes, and `id` appears in none of them. -/
theorem claim2_widget_example :
    entity_macro_internal widgetEntity = .ok widgetShapes ∧
    (∀ p ∈ widgetShapes.new.fields ++ widgetShapes.create_request.fields ++
        widgetShapes.update.fields ++ widgetShapes.update_request.fields ++
        widgetShapes.response.fields, p.1 ≠ "id") := by
  decide

/-- Claim C5: `make_option` is idempotent — wrapping an already-optional
type yields a single level of optionality. -/
theorem claim5_wrap_optional_idempotent (t : Ty) :
    make_option (make_option t) = make_option t := by
  by_cases h : is_option_type t = true
  · have h1 : make_option t = t := by
      unfold make_option
      rw [if_pos h]
    rw [h1]
    exact h1
  · simp only [Bool.not_eq_true] at h
    have h1 : make_option t = Ty.path1 ["Option"] t := by
      unfold make_option
      rw [if_neg (by simp [h])]
    rw [h1]
    have h2 : is_option_type (Ty.path1 ["Option"] t) = true := by
      simp [is_option_type]
    unfold make_option
    rw [if_pos h2]

/-- Counterexample for C9 as stated: for a field flagged `HasDefault`,
the persistence-create shape does not carry the declared type — it
carries the optional-wrapped type, although update-side wrapping does not
apply to the create shape. -/
theorem claim9_counterexample :
    ∃ s, entity_macro_internal hasDefaultEntity = .ok s ∧
      s.new.fields = [("count", Ty.path1 ["Option"] tyInt)] ∧
      ("count", tyInt) ∉ s.new.fields := by
  refine ⟨{ table_name := "counters"
            new := { name := "NewCounter"
                     fields := [("count", Ty.path1 ["Option"] tyInt)] }
            create_request :=
              { name := "CreateCounterRequest"
                fields := [("count", Ty.path1 ["Option"] tyInt)] }
            update := { name := "UpdateCounter"
                        fields := [("count", Ty.path1 ["Option"] tyInt)] }
            update_request :=
              { name := "UpdateCounterRequest"
                fields := [("count", Ty.path1 ["Option"] tyInt)] }
            response := { name := "CounterResponse"
                          fields := [("count", tyInt)] } }, ?_, ?_, ?_⟩
  · decide
  · decide
  · decide

/-- Claim C10: a field named exactly `_id` flagged `RepresentableAsString`
strips to the empty identifier, and identifier construction panics instead
of returning a diagnostic. -/
theorem claim10_strip_to_empty_panics (nm tn : String) (ty : Ty) :
    entity_macro_internal
      { name := nm, table_name := some tn,
        fields := [{ ident := some "_id", ty := ty,
                     tokens := ["RepresentableAsString"] }] } = .panics ∧
    ∀ d, entity_macro_internal
      { name := nm, table_name := some tn,
        fields := [{ ident := some "_id", ty := ty,
                     tokens := ["RepresentableAsString"] }] } ≠ .err d := by
  have hflags : parseFlags {} ["RepresentableAsString"] =
      .ok { push_to_new := true, option_in_new := false,
            push_to_create_request := true, push_to_update := true,
            push_to_update_request := true, push_to_response := true,
            representable_as_name := true } := by decide
  have hcv : code_visible_name "_id" true = none := by decide
  have hp : processField { ident := some "_id", ty := ty,
                           tokens := ["RepresentableAsString"] } = .panics := by
    simp only [processField, hflags, hcv]
  have he : entity_macro_internal
      { name := nm, table_name := some tn,
        fields := [{ ident := some "_id", ty := ty,
                     tokens := ["RepresentableAsString"] }] } = .panics := by
    simp only [entity_macro_internal, collectFields, hp]
  exact ⟨he, fun d hd => by rw [he] at hd; exact MacroResult.noConfusion hd⟩

/-- Claim C3: every field kept in the persistence-update shape carries
`optional(declared_type)` and every field kept in the update-request shape
carries `optional(visible type after create-side wrapping)`; the wrapping
is unconditional — every type in either update shape is an `Option`. -/
theorem claim3_update_wrapping (e : EntityInput) (s : Shapes)
    (h : entity_macro_internal e = .ok s) :
    s.update.fields = e.fields.filterMap updateEntry? ∧
    s.update_request.fields = e.fields.filterMap updateRequestEntry? ∧
    (∀ p ∈ s.update.fields, is_option_type p.2 = true) ∧
    (∀ p ∈ s.update_request.fields, is_option_type p.2 = true) := by
  obtain ⟨h1, h2, h3, h4, h5⟩ := entity_ok_shapes e s h
  refine ⟨h3, h4, ?_, ?_⟩
  · intro p hp
    rw [h3] at hp
    obtain ⟨f, hf, hpf⟩ := List.mem_filterMap.mp hp
    unfold updateEntry? at hpf
    split at hpf
    · rw [← Option.some.inj hpf]
      exact is_option_type_make_option f.ty
    · exact Option.noConfusion hpf
  · intro p hp
    rw [h4] at hp
    obtain ⟨f, hf, hpf⟩ := List.mem_filterMap.mp hp
    unfold updateRequestEntry? at hpf
    split at hpf
    · rw [← Option.some.inj hpf]
      exact is_option_type_make_option (create_wrapped_visible_type f)
    · exact Option.noConfusion hpf

/-- Witness for C3 at the Widget example. -/
theorem claim3_witness :
    widgetShapes.update.fields = widgetEntity.fields.filterMap updateEntry? ∧
    widgetShapes.update_request.fields =
      widgetEntity.fields.filterMap updateRequestEntry? ∧
    (∀ p ∈ widgetShapes.update.fields, is_option_type p.2 = true) ∧
    (∀ p ∈ widgetShapes.update_request.fields, is_option_type p.2 = true) :=
  claim3_update_wrapping widgetEntity widgetShapes (by decide)

/-- Claim C4: the response entry is taken before create-side wrapping —
its type is the visible type of the `RepresentableAsString` transform (or
the declared type), never optional-wrapped by `HasDefault`; a field
flagged `HasDefault` alone, of non-optional declared type, is optional in
persistence-create and create-request but keeps its declared type in the
response shape. -/
theorem claim4_response_untouched_by_default (e : EntityInput) (s : Shapes)
    (h : entity_macro_internal e = .ok s) :
    s.response.fields = e.fields.filterMap responseEntry? ∧
    (∀ f ∈ e.fields, f.tokens = ["HasDefault"] → is_option_type f.ty = false →
      (field_ident f, make_option f.ty) ∈ s.new.fields ∧
      (field_ident f, make_option f.ty) ∈ s.create_request.fields ∧
      (field_ident f, f.ty) ∈ s.response.fields ∧
      is_option_type (make_option f.ty) = true) := by
  obtain ⟨h1, h2, h3, h4, h5⟩ := entity_ok_shapes e s h
  refine ⟨h5, ?_⟩
  intro f hf htok hopt
  refine ⟨?_, ?_, ?_, is_option_type_make_option f.ty⟩
  · rw [h1]
    refine List.mem_filterMap.mpr ⟨f, hf, ?_⟩
    simp [newEntry?, include_in_create, new_type, wrap_optional_on_create,
      hasFlag, htok]
  · rw [h2]
    refine List.mem_filterMap.mpr ⟨f, hf, ?_⟩
    simp [createRequestEntry?, include_in_create_request, visible_name,
      visible_type, create_wrapped_visible_type, code_visible_type,
      wrap_optional_on_create, hasFlag, htok]
  · rw [h5]
    refine List.mem_filterMap.mpr ⟨f, hf, ?_⟩
    simp [responseEntry?, include_in_response, visible_name, visible_type,
      code_visible_type, hasFlag, htok]

/-- Witness for C4 at the Widget example's `count` field. -/
theorem claim4_witness :
    widgetShapes.response.fields =
      widgetEntity.fields.filterMap responseEntry? ∧
    ("count", make_option tyInt) ∈ widgetShapes.new.fields ∧
    ("count", make_option tyInt) ∈ widgetShapes.create_request.fields ∧
    ("count", tyInt) ∈ widgetShapes.response.fields ∧
    is_option_type (make_option tyInt) = true := by
  have h := claim4_response_untouched_by_default widgetEntity widgetShapes
    (by decide)
  have h2 := h.2 { ident := some "count", ty := tyInt,
                   tokens := ["HasDefault"] } (by decide) rfl (by decide)
  exact ⟨h.1, h2.1, h2.2.1, h2.2.2.1, h2.2.2.2⟩

/-- Claim C6: each of the five derived shapes lists its fields in an order
that is a subsequence of the declared field order — fields are omitted,
never reordered. -/
theorem claim6_order_preserved (e : EntityInput) (s : Shapes)
    (h : entity_macro_internal e = .ok s) :
    (∃ l, List.Sublist l e.fields ∧
      s.new.fields = l.map (fun f => (newEntry? f).getD dummyEntry)) ∧
    (∃ l, List.Sublist l e.fields ∧
      s.create_request.fields =
        l.map (fun f => (createRequestEntry? f).getD dummyEntry)) ∧
    (∃ l, List.Sublist l e.fields ∧
      s.update.fields = l.map (fun f => (updateEntry? f).getD dummyEntry)) ∧
    (∃ l, List.Sublist l e.fields ∧
      s.update_request.fields =
        l.map (fun f => (updateRequestEntry? f).getD dummyEntry)) ∧
    (∃ l, List.Sublist l e.fields ∧
      s.response.fields =
        l.map (fun f => (responseEntry? f).getD dummyEntry)) := by
  obtain ⟨h1, h2, h3, h4, h5⟩ := entity_ok_shapes e s h
  refine ⟨?_, ?_, ?_, ?_, ?_⟩
  · rw [h1]
    exact filterMap_eq_sublist_map newEntry? e.fields
  · rw [h2]
    exact filterMap_eq_sublist_map createRequestEntry? e.fields
  · rw [h3]
    exact filterMap_eq_sublist_map updateEntry? e.fields
  · rw [h4]
    exact filterMap_eq_sublist_map updateRequestEntry? e.fields
  · rw [h5]
    exact filterMap_eq_sublist_map responseEntry? e.fields

/-- Witness for C6 at the Widget example. -/
theorem claim6_witness :
    (∃ l, List.Sublist l widgetEntity.fields ∧
      widgetShapes.new.fields =
        l.map (fun f => (newEntry? f).getD dummyEntry)) ∧
    (∃ l, List.Sublist l widgetEntity.fields ∧
      widgetShapes.create_request.fields =
        l.map (fun f => (createRequestEntry? f).getD dummyEntry)) ∧
    (∃ l, List.Sublist l widgetEntity.fields ∧
      widgetShapes.update.fields =
        l.map (fun f => (updateEntry? f).getD dummyEntry)) ∧
    (∃ l, List.Sublist l widgetEntity.fields ∧
      widgetShapes.update_request.fields =
        l.map (fun f => (updateRequestEntry? f).getD dummyEntry)) ∧
    (∃ l, List.Sublist l widgetEntity.fields ∧
      widgetShapes.response.fields =
        l.map (fun f => (responseEntry? f).getD dummyEntry)) :=
  claim6_order_preserved widgetEntity widgetShapes (by decide)

/-- Claim C7: the visible-name transform is deterministic and gated on
`RepresentableAsString` — with the flag, `x_id` becomes `x` and a name
without the `_id` suffix is unchanged; without the flag nothing is
stripped; with the flag the visible type is `String` for a non-optional
declared type and `Option<String>` for an optional one. -/
theorem claim7_visible_name_type (x ident : String) (tyN tyO : Ty)
    (hx : x ≠ "") (hid : ident ≠ "")
    (hns : "_id".data.isSuffixOf ident.data = false)
    (hN : is_option_type tyN = false) (hO : is_option_type tyO = true) :
    code_visible_name (x ++ "_id") true = some x ∧
    code_visible_name ident true = some ident ∧
    code_visible_name (x ++ "_id") false = some (x ++ "_id") ∧
    code_visible_name ident false = some ident ∧
    code_visible_type tyN true = tyString ∧
    code_visible_type tyO true = tyOptionString ∧
    code_visible_type tyN false = tyN ∧
    code_visible_type tyO false = tyO := by
  refine ⟨?_, ?_, rfl, rfl, ?_, ?_, rfl, rfl⟩
  · simp [code_visible_name, identNew, strip_suffix_append x, hx]
  · simp [code_visible_name, identNew, strip_suffix_not_suffix ident hns, hid]
  · simp [code_visible_type, hN]
  · simp [code_visible_type, hO]

/-- Witness for C7 at the `category_id` / `label` field names. -/
theorem claim7_witness :
    code_visible_name ("category" ++ "_id") true = some "category" ∧
    code_visible_name "label" true = some "label" ∧
    code_visible_name ("category" ++ "_id") false =
      some ("category" ++ "_id") ∧
    code_visible_name "label" false = some "label" ∧
    code_visible_type tyInt true = tyString ∧
    code_visible_type (Ty.path1 ["Option"] tyInt) true = tyOptionString ∧
    code_visible_type tyInt false = tyInt ∧
    code_visible_type (Ty.path1 ["Option"] tyInt) false =
      Ty.path1 ["Option"] tyInt :=
  claim7_visible_name_type "category" "label" tyInt (Ty.path1 ["Option"] tyInt)
    (by decide) (by decide) (by decide) (by decide) (by decide)

/-- Counterexample for C8 as stated: the unknown-flag diagnostic does not
name the offending field.  Line 222 of the source rebuilds the
`syn::Error` as `Diagnostic::new(Level::Error, e.to_string())`, dropping
`attr.span()`, so two entities that differ only in the offending field's
name produce the identical diagnostic, which therefore cannot identify
the field. -/
theorem claim8_counterexample :
    entity_macro_internal bogusEntity = .err (.unknownFlag "Bogus") ∧
    entity_macro_internal bogusEntityY = .err (.unknownFlag "Bogus") ∧
    bogusEntity.fields.map (fun f => f.ident) ≠
      bogusEntityY.fields.map (fun f => f.ident) := by
  refine ⟨by decide, by decide, by decide⟩

/-- Claim C8 (amended): a field carrying an unrecognized token makes the
derivation fail with an unknown-flag diagnostic whose message names that
token (the field itself is not identified — the attribute span is dropped
when the `syn::Error` is converted to a `Diagnostic`), and no shapes are
produced. -/
theorem claim8_unknown_flag_rejection (e : EntityInput) (tn : String)
    (htable : e.table_name = some tn)
    (hnamed : ∀ f ∈ e.fields, f.ident ≠ none)
    (hsafe : ∀ f ∈ e.fields, hasFlag f "RepresentableAsString" = true →
      visible_name f ≠ "")
    (hbad : ∃ f ∈ e.fields, ∃ t ∈ f.tokens, t ∉ recognizedFlags) :
    (∃ f ∈ e.fields, ∃ t ∈ f.tokens, t ∉ recognizedFlags ∧
      entity_macro_internal e = .err (.unknownFlag t)) ∧
    (∀ s, entity_macro_internal e ≠ .ok s) := by
  obtain ⟨f, hf, t, ht, hbt, hcf⟩ := collectFields_bad e.fields hnamed hsafe hbad
  have he : entity_macro_internal e = .err (.unknownFlag t) := by
    simp only [entity_macro_internal, htable, hcf]
  exact ⟨⟨f, hf, t, ht, hbt, he⟩,
    fun s hs => by rw [he] at hs; exact MacroResult.noConfusion hs⟩

/-- Witness for C8 (amended) at an entity whose field carries the token
`Bogus`. -/
theorem claim8_witness :
    (∃ f ∈ bogusEntity.fields, ∃ t ∈ f.tokens, t ∉ recognizedFlags ∧
      entity_macro_internal bogusEntity = .err (.unknownFlag t)) ∧
    (∀ s, entity_macro_internal bogusEntity ≠ .ok s) :=
  claim8_unknown_flag_rejection bogusEntity "gadgets" (by decide) (by decide)
    (by decide) (by decide)

/-- Claim C9 (amended): the two persistence shapes always use the field's
original declared name and a type built from the declared type alone —
`Update` unconditionally `optional(declared)`, `New` the declared type,
optional-wrapped exactly when `HasDefault` is set; the
`RepresentableAsString` renaming and string-typing never reach them. -/
theorem claim9_persistence_shapes (e : EntityInput) (s : Shapes)
    (h : entity_macro_internal e = .ok s) :
    s.new.fields = e.fields.filterMap newEntry? ∧
    s.update.fields = e.fields.filterMap updateEntry? := by
  obtain ⟨h1, h2, h3, h4, h5⟩ := entity_ok_shapes e s h
  exact ⟨h1, h3⟩

/-- Witness for C9 (amended) at the Widget example. -/
theorem claim9_witness :
    widgetShapes.new.fields = widgetEntity.fields.filterMap newEntry? ∧
    widgetShapes.update.fields = widgetEntity.fields.filterMap updateEntry? :=
  claim9_persistence_shapes widgetEntity widgetShapes (by decide)

end MoneyRs
